import Mathlib

/-!
# A JSON user store: `Perform` and its four handlers

Shallow embedding of `main.go`.  Go strings and byte slices are lists of
bytes, the file system is a map from paths to file contents together with the
paths at which a file can be created, the writer is a buffer that records
what has been written, and every handler is a function from the world before
the call to the returned error and the world after it.

The package `encoding/json` is not part of the program: the handlers take it
as a parameter (`Json`), so the general theorems hold for every codec, and a
concrete codec (`goJson`) that follows `encoding/json` is used to evaluate
the handlers on explicit inputs.
-/

namespace UserStore

/-! ## Data model -/

/-- Go `string` and `[]byte`: a sequence of bytes. -/
abbrev Bytes := List UInt8

/-- The UTF-8 bytes of a literal. -/
def utf8 (s : String) : Bytes := s.data.flatMap String.utf8EncodeChar

/-- Record `type User struct`; Go `int` is kept as an unbounded integer. -/
structure User where
  Id : Bytes
  Email : Bytes
  Age : Int
deriving DecidableEq, Repr

/-- Slice `type Users []User`. -/
abbrev Users := List User

/-- Map `type Arguments map[string]string`, as its list of entries. -/
abbrev Arguments := List (Bytes × Bytes)

/-- Lookup `args[key]`: the zero value (the empty string) when the key is absent. -/
def Arguments.get (args : Arguments) (key : Bytes) : Bytes :=
  match args.lookup key with
  | some v => v
  | none => []

/-- Errors reported by `encoding/json`. -/
inductive JsonError where
  | syntaxError
  | unmarshalTypeError
deriving DecidableEq, Repr

/-- Go `error` values that `Perform` can return. -/
inductive GoError where
  /-- Value `errors.New(msg)`. -/
  | new (msg : Bytes)
  /-- Value `fmt.Errorf(pre ++ "%w", inner)`. -/
  | wrap (pre : Bytes) (inner : GoError)
  /-- The `*fs.PathError` of `os.OpenFile` on a path that does not exist. -/
  | notExist (path : Bytes)
  /-- The `*fs.PathError` of `os.OpenFile` with `O_CREATE` on a path that does
  not exist and cannot be created. -/
  | cannotCreate (path : Bytes)
  /-- An error returned by `encoding/json`. -/
  | json (e : JsonError)
deriving DecidableEq, Repr

def ErrOperation : GoError := .new (utf8 "-operation flag has to be specified")
def ErrItem : GoError := .new (utf8 "-item flag has to be specified")
def ErrFlagName : GoError := .new (utf8 "-fileName flag has to be specified")
def ErrId : GoError := .new (utf8 "-id flag has to be specified")

/-! ## The library: `encoding/json` -/

/-- The four uses the program makes of `encoding/json`.  `Unmarshal` fills
its target as far as it can and reports the first error, so both results are
kept; `Marshal` of a `User` or of `Users` has no failing case. -/
structure Json where
  /-- Call `json.Unmarshal(data, &newUser)` on a zero `User`. -/
  unmarshalUser : Bytes → User × Option JsonError
  /-- Call `json.Unmarshal(data, &users)` on `users := Users{}`. -/
  unmarshalUsers : Bytes → Users × Option JsonError
  /-- Call `json.Marshal(&user)`. -/
  marshalUser : User → Bytes
  /-- Call `json.Marshal(users)`. -/
  marshalUsers : Users → Bytes

/-- Call `json.Marshal(users)` with its error, which is `nil` for this type. -/
def Json.MarshalUsers (J : Json) (users : Users) : Bytes × Option GoError :=
  (J.marshalUsers users, none)

/-- Call `json.Marshal(foundUser)` with its error, which is `nil` for this type. -/
def Json.MarshalUser (J : Json) (user : User) : Bytes × Option GoError :=
  (J.marshalUser user, none)

/-! ## The world: files and the writer -/

/-- The files by path: `none` where no file exists. -/
abbrev FS := Bytes → Option Bytes

/-- State `fs` with the file at `path` replaced. -/
def FS.set (fs : FS) (path : Bytes) (c : Option Bytes) : FS :=
  fun p => if p = path then c else fs p

/-- The files, the paths at which a directory entry can be made or removed
(the directory exists and is writable), and the bytes written to the
`io.Writer` so far. -/
structure World where
  fs : FS
  dirWritable : Bytes → Bool
  out : Bytes

/-- Call `os.OpenFile(path, O_RDWR|flags, perm)`: the error, or the files after
the call (the handle starts at offset 0).  A file that exists is opened; a
missing file is created when `O_CREATE` is given and its directory allows it. -/
def osOpenFile (dw : Bytes → Bool) (fs : FS) (path : Bytes) (create trunc : Bool) :
    Except GoError FS :=
  match fs path with
  | some _ => .ok (if trunc then fs.set path (some []) else fs)
  | none =>
    if create then
      if dw path then .ok (fs.set path (some [])) else .error (.cannotCreate path)
    else .error (.notExist path)

/-- Call `io.ReadAll(file)` on a freshly opened file. -/
def ioReadAll (fs : FS) (path : Bytes) : Bytes × Option GoError :=
  match fs path with
  | some c => (c, none)
  | none => ([], none)

/-- Call `file.Write(data)` on a freshly opened file: the bytes from offset 0
are overwritten, bytes of the old contents beyond `data` stay. -/
def fileWrite (fs : FS) (path : Bytes) (data : Bytes) : FS :=
  match fs path with
  | some c => fs.set path (some (data ++ c.drop data.length))
  | none => fs

/-- Call `os.Remove(path)`, its error dropped: the entry goes when the
directory allows it. -/
def osRemove (dw : Bytes → Bool) (fs : FS) (path : Bytes) : FS :=
  if dw path then fs.set path none else fs

/-- Call `writer.Write(data)` on a writer that records its input. -/
def writerWrite (out : Bytes) (data : Bytes) : Bytes × Option GoError :=
  (out ++ data, none)

/-! ## The program -/

def getList (fileName : Bytes) (w : World) : Option GoError × World :=
  match osOpenFile w.dirWritable w.fs fileName false false with
  | .error err => (some err, w)
  | .ok fs1 =>
    match ioReadAll fs1 fileName with
    | (_, some err) => (some err, { w with fs := fs1 })
    | (bytes, none) =>
      match writerWrite w.out bytes with
      | (out1, some err) => (some err, { w with fs := fs1, out := out1 })
      | (out1, none) => (none, { w with fs := fs1, out := out1 })

def getUsersArray (J : Json) (dw : Bytes → Bool) (fileName : Bytes) (fs : FS) :
    Except GoError Users × FS :=
  match osOpenFile dw fs fileName true false with
  | .error err => (.error err, fs)
  | .ok fs1 =>
    match ioReadAll fs1 fileName with
    | (_, some err) => (.error err, fs1)
    | (bytes, none) => (.ok (J.unmarshalUsers bytes).1, fs1)

/-- Loop `for _, u := range users { if u.Id == id { ...; return / break } }`
with its index: the first record with that identifier. -/
def scan (id : Bytes) : Users → Nat → Option (Nat × User)
  | [], _ => none
  | u :: rest, i => if u.Id = id then some (i, u) else scan id rest (i + 1)

def addUser (J : Json) (item fileName : Bytes) (w : World) : Option GoError × World :=
  match J.unmarshalUser item with
  | (_, some err) => (some (.wrap (utf8 "can\x27t unmarshal json, error = ") (.json err)), w)
  | (newUser, none) =>
    match getUsersArray J w.dirWritable fileName w.fs with
    | (.error err, fs1) =>
      (some (.wrap (utf8 "can\x27t get users array from json file, error = ") err),
        { w with fs := fs1 })
    | (.ok users, fs1) =>
      match scan newUser.Id users 0 with
      | some _ =>
        (none, { w with
                 fs := fs1,
                 out := (writerWrite w.out
                   (utf8 "Item with id " ++ newUser.Id ++ utf8 " already exists")).1 })
      | none =>
        let users1 := users ++ [newUser]
        match osOpenFile w.dirWritable fs1 fileName false false with
        | .error err =>
          (some (.wrap (utf8 "can\x27t open file, error = ") err), { w with fs := fs1 })
        | .ok fs2 =>
          match J.MarshalUsers users1 with
          | (_, some err) =>
            (some (.wrap (utf8 "can\x27t marshal users slice, error = ") err),
              { w with fs := fs2 })
          | (data, none) => (none, { w with fs := fileWrite fs2 fileName data })

def findUserById (J : Json) (id fileName : Bytes) (w : World) : Option GoError × World :=
  match getUsersArray J w.dirWritable fileName w.fs with
  | (.error err, fs1) =>
    (some (.wrap (utf8 "can\x27t get users array from json file, error = ") err),
      { w with fs := fs1 })
  | (.ok users, fs1) =>
    match scan id users 0 with
    | none => (none, { w with fs := fs1 })
    | some (_, foundUser) =>
      match J.MarshalUser foundUser with
      | (_, some err) =>
        (some (.wrap (utf8 "can\x27t marshal found user, error = ") err), { w with fs := fs1 })
      | (data, none) => (none, { w with fs := fs1, out := (writerWrite w.out data).1 })

def removeUser (J : Json) (id fileName : Bytes) (w : World) : Option GoError × World :=
  match getUsersArray J w.dirWritable fileName w.fs with
  | (.error err, fs1) =>
    (some (.wrap (utf8 "can\x27t get users array from json file, error = ") err),
      { w with fs := fs1 })
  | (.ok users, fs1) =>
    match scan id users 0 with
    | none =>
      (none, { w with
               fs := fs1,
               out := (writerWrite w.out (utf8 "Item with id " ++ id ++ utf8 " not found")).1 })
    | some (index, _) =>
      let users1 := users.take index ++ users.drop (index + 1)
      let fs2 := osRemove w.dirWritable fs1 fileName
      match osOpenFile w.dirWritable fs2 fileName true true with
      | .error err =>
        (some (.wrap (utf8 "can\x27t open or create file, error = ") err), { w with fs := fs2 })
      | .ok fs3 =>
        match J.MarshalUsers users1 with
        | (_, some err) =>
          (some (.wrap (utf8 "can\x27t marshal users slice, error = ") err),
            { w with fs := fs3 })
        | (data, none) => (none, { w with fs := fileWrite fs3 fileName data })

def Perform (J : Json) (args : Arguments) (w : World) : Option GoError × World :=
  let operation := args.get (utf8 "operation")
  if operation = [] then (some ErrOperation, w) else
  let fileName := args.get (utf8 "fileName")
  if fileName = [] then (some ErrFlagName, w) else
  if operation = utf8 "list" then getList fileName w
  else if operation = utf8 "add" then
    let item := args.get (utf8 "item")
    if item = [] then (some ErrItem, w) else addUser J item fileName w
  else if operation = utf8 "findById" then
    let id := args.get (utf8 "id")
    if id = [] then (some ErrId, w) else findUserById J id fileName w
  else if operation = utf8 "remove" then
    let id := args.get (utf8 "id")
    if id = [] then (some ErrId, w) else removeUser J id fileName w
  else
    (some (.new (utf8 "Operation " ++ args.get (utf8 "operation") ++ utf8 " not allowed!")), w)

/-- The map built by `parseArgs` from the four flags. -/
def parseArgs (operation id item fileName : Bytes) : Arguments :=
  [(utf8 "operation", operation), (utf8 "id", id), (utf8 "item", item),
   (utf8 "fileName", fileName)]

/-! ## A concrete codec

The behaviour of `encoding/json` on the two types the program uses: the whole
input is checked to be one JSON value first (otherwise a syntax error and an
untouched target), then stored field by field, a value of the wrong kind
leaving its target as it was and saving a type error while decoding goes on. -/

namespace GoJson

/-! ### Text: white space, digits, UTF-8 -/

def isSpace (c : UInt8) : Bool :=
  c.toNat = 0x20 || c.toNat = 0x09 || c.toNat = 0x0d || c.toNat = 0x0a

def skipSpace : Bytes → Bytes
  | [] => []
  | c :: rest => if isSpace c then skipSpace rest else c :: rest

def isDigit (c : UInt8) : Bool := 0x30 ≤ c.toNat && c.toNat ≤ 0x39

/-- The longest run of decimal digits at the front, and what follows it. -/
def takeDigits : Bytes → Bytes × Bytes
  | [] => ([], [])
  | c :: rest =>
    if isDigit c then (c :: (takeDigits rest).1, (takeDigits rest).2) else ([], c :: rest)

def startsWith (p s : Bytes) : Bool := s.take p.length = p

def hexVal (c : UInt8) : Option Nat :=
  if 0x30 ≤ c.toNat && c.toNat ≤ 0x39 then some (c.toNat - 0x30)
  else if 0x61 ≤ c.toNat && c.toNat ≤ 0x66 then some (c.toNat - 0x61 + 10)
  else if 0x41 ≤ c.toNat && c.toNat ≤ 0x46 then some (c.toNat - 0x41 + 10)
  else none

def hexDigit (n : Nat) : UInt8 :=
  if n < 10 then UInt8.ofNat (0x30 + n) else UInt8.ofNat (0x61 + (n - 10))

def isCont (c : UInt8) : Bool := 0x80 ≤ c.toNat && c.toNat ≤ 0xbf

/-- Function `utf8.DecodeRune`: the rune at the front and its width; an
invalid or short encoding yields `(U+FFFD, 1)`. -/
def decodeRune : Bytes → Nat × Nat
  | [] => (0xfffd, 0)
  | b0 :: t =>
    if b0.toNat < 0x80 then (b0.toNat, 1)
    else if 0xc2 ≤ b0.toNat && b0.toNat ≤ 0xdf then
      match t with
      | b1 :: _ =>
        if isCont b1 then ((b0.toNat % 32) * 64 + b1.toNat % 64, 2) else (0xfffd, 1)
      | _ => (0xfffd, 1)
    else if 0xe0 ≤ b0.toNat && b0.toNat ≤ 0xef then
      match t with
      | b1 :: b2 :: _ =>
        if (if b0.toNat = 0xe0 then 0xa0 else 0x80) ≤ b1.toNat
            && b1.toNat ≤ (if b0.toNat = 0xed then 0x9f else 0xbf) && isCont b2 then
          (((b0.toNat % 16) * 64 + b1.toNat % 64) * 64 + b2.toNat % 64, 3)
        else (0xfffd, 1)
      | _ => (0xfffd, 1)
    else if 0xf0 ≤ b0.toNat && b0.toNat ≤ 0xf4 then
      match t with
      | b1 :: b2 :: b3 :: _ =>
        if (if b0.toNat = 0xf0 then 0x90 else 0x80) ≤ b1.toNat
            && b1.toNat ≤ (if b0.toNat = 0xf4 then 0x8f else 0xbf)
            && isCont b2 && isCont b3 then
          ((((b0.toNat % 8) * 64 + b1.toNat % 64) * 64 + b2.toNat % 64) * 64 + b3.toNat % 64, 4)
        else (0xfffd, 1)
      | _ => (0xfffd, 1)
    else (0xfffd, 1)

/-- Function `utf8.EncodeRune`; surrogates and runes past U+10FFFF become U+FFFD. -/
def encodeRune (r : Nat) : Bytes :=
  if r < 0x80 then [UInt8.ofNat r]
  else if r < 0x800 then [UInt8.ofNat (0xc0 + r / 64), UInt8.ofNat (0x80 + r % 64)]
  else if (0xd800 ≤ r && r < 0xe000) || 0x10ffff < r then [0xef, 0xbf, 0xbd]
  else if r < 0x10000 then
    [UInt8.ofNat (0xe0 + r / 4096), UInt8.ofNat (0x80 + r / 64 % 64), UInt8.ofNat (0x80 + r % 64)]
  else
    [UInt8.ofNat (0xf0 + r / 262144), UInt8.ofNat (0x80 + r / 4096 % 64),
     UInt8.ofNat (0x80 + r / 64 % 64), UInt8.ofNat (0x80 + r % 64)]

/-! ### Decoding: the scanner -/

/-- A JSON document; a number keeps its literal. -/
inductive JValue where
  | null
  | bool (b : Bool)
  | num (raw : Bytes)
  | str (s : Bytes)
  | arr (xs : List JValue)
  | obj (kvs : List (Bytes × JValue))

/-- Constant `maxNestingDepth` of the scanner. -/
def maxNestingDepth : Nat := 10000

/-- Function `getu4`: the value of a leading `\uXXXX`, and what follows it. -/
def getu4 : Bytes → Option (Nat × Bytes)
  | b :: u :: h1 :: h2 :: h3 :: h4 :: rest =>
    if b.toNat = 0x5c && u.toNat = 0x75 then
      match hexVal h1, hexVal h2, hexVal h3, hexVal h4 with
      | some a, some b, some c, some d => some (((a * 16 + b) * 16 + c) * 16 + d, rest)
      | _, _, _, _ => none
    else none
  | _ => none

/-- The byte an escape letter stands for. -/
def simpleEscape (e : UInt8) : Option UInt8 :=
  if e.toNat = 0x22 || e.toNat = 0x5c || e.toNat = 0x2f then some e
  else if e.toNat = 0x62 then some 0x08
  else if e.toNat = 0x66 then some 0x0c
  else if e.toNat = 0x6e then some 0x0a
  else if e.toNat = 0x72 then some 0x0d
  else if e.toNat = 0x74 then some 0x09
  else none

/-- A string literal after its opening quote: the unquoted bytes (as by
`unquote`) and what follows the closing quote. -/
def parseString : Nat → Bytes → Option (Bytes × Bytes)
  | 0, _ => none
  | _, [] => none
  | n + 1, c :: rest =>
    if c.toNat = 0x22 then some ([], rest)
    else if c.toNat = 0x5c then
      match rest with
      | [] => none
      | e :: rest1 =>
        if e.toNat = 0x75 then
          match getu4 (c :: rest) with
          | none => none
          | some (r, rest2) =>
            if 0xd800 ≤ r && r < 0xe000 then
              match getu4 rest2 with
              | some (r2, rest3) =>
                if r < 0xdc00 && 0xdc00 ≤ r2 && r2 < 0xe000 then
                  (parseString n rest3).map fun (s, t) =>
                    (encodeRune ((r - 0xd800) * 1024 + (r2 - 0xdc00) + 0x10000) ++ s, t)
                else (parseString n rest2).map fun (s, t) => (encodeRune 0xfffd ++ s, t)
              | none => (parseString n rest2).map fun (s, t) => (encodeRune 0xfffd ++ s, t)
            else (parseString n rest2).map fun (s, t) => (encodeRune r ++ s, t)
        else
          match simpleEscape e with
          | some b => (parseString n rest1).map fun (s, t) => (b :: s, t)
          | none => none
    else if c.toNat < 0x20 then none
    else if c.toNat < 0x80 then (parseString n rest).map fun (s, t) => (c :: s, t)
    else if (decodeRune (c :: rest)).2 ≤ 1 then
      (parseString n rest).map fun (s, t) => (encodeRune 0xfffd ++ s, t)
    else
      (parseString n (rest.drop ((decodeRune (c :: rest)).2 - 1))).map fun (s, t) =>
        ((c :: rest).take (decodeRune (c :: rest)).2 ++ s, t)

/-- A number literal at the front: `-? (0 | [1-9][0-9]*) (. [0-9]+)? ([eE] [+-]? [0-9]+)?`. -/
def parseNumber (s : Bytes) : Option (Bytes × Bytes) :=
  let (sign, s1) : Bytes × Bytes :=
    match s with
    | c :: r => if c.toNat = 0x2d then ([c], r) else ([], s)
    | [] => ([], [])
  match s1 with
  | [] => none
  | d :: r =>
    let intPart : Option (Bytes × Bytes) :=
      if d.toNat = 0x30 then some ([d], r)
      else if isDigit d then some (d :: (takeDigits r).1, (takeDigits r).2)
      else none
    match intPart with
    | none => none
    | some (ip, s2) =>
      let fracPart : Option (Bytes × Bytes) :=
        match s2 with
        | p :: r2 =>
          if p.toNat = 0x2e then
            (if (takeDigits r2).1 = [] then none
             else some (p :: (takeDigits r2).1, (takeDigits r2).2))
          else some ([], s2)
        | [] => some ([], [])
      match fracPart with
      | none => none
      | some (fp, s3) =>
        let expPart : Option (Bytes × Bytes) :=
          match s3 with
          | e :: r3 =>
            if e.toNat = 0x65 || e.toNat = 0x45 then
              let (sg, r4) : Bytes × Bytes :=
                match r3 with
                | g :: r5 => if g.toNat = 0x2b || g.toNat = 0x2d then ([g], r5) else ([], r3)
                | [] => ([], [])
              (if (takeDigits r4).1 = [] then none
               else some (e :: sg ++ (takeDigits r4).1, (takeDigits r4).2))
            else some ([], s3)
          | [] => some ([], [])
        match expPart with
        | none => none
        | some (ep, s4) => some (sign ++ ip ++ fp ++ ep, s4)

mutual
/-- One value, white space before it skipped, and what follows it; `depth`
counts the arrays and objects that are open. -/
def parseValue : Nat → Nat → Bytes → Option (JValue × Bytes)
  | 0, _, _ => none
  | n + 1, depth, s =>
    match skipSpace s with
    | [] => none
    | c :: rest =>
      if c.toNat = 0x5b then
        if maxNestingDepth ≤ depth then none
        else
          match skipSpace rest with
          | [] => none
          | d :: rest1 =>
            if d.toNat = 0x5d then some (.arr [], rest1)
            else (parseElems n (depth + 1) (d :: rest1)).map fun (xs, r) => (.arr xs, r)
      else if c.toNat = 0x7b then
        if maxNestingDepth ≤ depth then none
        else
          match skipSpace rest with
          | [] => none
          | d :: rest1 =>
            if d.toNat = 0x7d then some (.obj [], rest1)
            else (parseMembers n (depth + 1) (d :: rest1)).map fun (kvs, r) => (.obj kvs, r)
      else if c.toNat = 0x22 then
        (parseString (rest.length + 1) rest).map fun (x, r) => (.str x, r)
      else if c.toNat = 0x2d || isDigit c then
        (parseNumber (c :: rest)).map fun (x, r) => (.num x, r)
      else if startsWith (utf8 "null") (c :: rest) then some (.null, rest.drop 3)
      else if startsWith (utf8 "true") (c :: rest) then some (.bool true, rest.drop 3)
      else if startsWith (utf8 "false") (c :: rest) then some (.bool false, rest.drop 4)
      else none
/-- The elements of an array after `[`, up to and including `]`. -/
def parseElems : Nat → Nat → Bytes → Option (List JValue × Bytes)
  | 0, _, _ => none
  | n + 1, depth, s =>
    match parseValue n depth s with
    | none => none
    | some (v, rest) =>
      match skipSpace rest with
      | [] => none
      | c :: rest1 =>
        if c.toNat = 0x2c then (parseElems n depth rest1).map fun (vs, r) => (v :: vs, r)
        else if c.toNat = 0x5d then some ([v], rest1)
        else none
/-- The members of an object after `{`, up to and including `}`. -/
def parseMembers : Nat → Nat → Bytes → Option (List (Bytes × JValue) × Bytes)
  | 0, _, _ => none
  | n + 1, depth, s =>
    match skipSpace s with
    | [] => none
    | q :: rest =>
      if q.toNat = 0x22 then
        match parseString (rest.length + 1) rest with
        | none => none
        | some (k, rest1) =>
          match skipSpace rest1 with
          | [] => none
          | c :: rest2 =>
            if c.toNat = 0x3a then
              match parseValue n depth rest2 with
              | none => none
              | some (v, rest3) =>
                match skipSpace rest3 with
                | [] => none
                | e :: rest4 =>
                  if e.toNat = 0x2c then
                    (parseMembers n depth rest4).map fun (kvs, r) => ((k, v) :: kvs, r)
                  else if e.toNat = 0x7d then some ([(k, v)], rest4)
                  else none
            else none
      else none
end

/-- Function `checkValid` together with the scan: the document, when the
whole input is one JSON value between white space, nested no deeper than
`maxNestingDepth`. -/
def parse (s : Bytes) : Option JValue :=
  match parseValue (2 * s.length + 2) 0 s with
  | some (v, rest) => if skipSpace rest = [] then some v else none
  | none => none

/-! ### Decoding: storing into `User` and `Users` -/

def lower (c : UInt8) : UInt8 :=
  if 0x41 ≤ c.toNat && c.toNat ≤ 0x5a then UInt8.ofNat (c.toNat + 0x20) else c

/-- The field a key selects: its exact name, else its name up to case. -/
def keyIs (key : Bytes) (name : String) : Bool := key.map lower = utf8 name

/-- Function `strconv.ParseInt(raw, 10, 64)` on a JSON number literal. -/
def parseInt64 (raw : Bytes) : Option Int :=
  let (neg, ds) : Bool × Bytes :=
    match raw with
    | c :: r => if c.toNat = 0x2d then (true, r) else (false, raw)
    | [] => (false, [])
  if ds = [] || !(ds.all isDigit) then none
  else
    let n : Nat := ds.foldl (fun acc d => acc * 10 + (d.toNat - 0x30)) 0
    if neg then (if n ≤ 2 ^ 63 then some (-(n : Int)) else none)
    else (if n < 2 ^ 63 then some (n : Int) else none)

/-- The first error is the one reported. -/
def saveError (saved : Option JsonError) (e : JsonError) : Option JsonError :=
  match saved with
  | some x => some x
  | none => some e

/-- One member of an object stored into a `User`. -/
def storeField (acc : User × Option JsonError) (kv : Bytes × JValue) : User × Option JsonError :=
  if keyIs kv.1 "id" then
    match kv.2 with
    | .str s => ({ acc.1 with Id := s }, acc.2)
    | .null => acc
    | _ => (acc.1, saveError acc.2 .unmarshalTypeError)
  else if keyIs kv.1 "email" then
    match kv.2 with
    | .str s => ({ acc.1 with Email := s }, acc.2)
    | .null => acc
    | _ => (acc.1, saveError acc.2 .unmarshalTypeError)
  else if keyIs kv.1 "age" then
    match kv.2 with
    | .num raw =>
      match parseInt64 raw with
      | some n => ({ acc.1 with Age := n }, acc.2)
      | none => (acc.1, saveError acc.2 .unmarshalTypeError)
    | .null => acc
    | _ => (acc.1, saveError acc.2 .unmarshalTypeError)
  else acc

/-- A value stored into a zero `User`, after the errors saved so far. -/
def storeUser (err : Option JsonError) : JValue → User × Option JsonError
  | .obj kvs => kvs.foldl storeField (⟨[], [], 0⟩, err)
  | .null => (⟨[], [], 0⟩, err)
  | _ => (⟨[], [], 0⟩, saveError err .unmarshalTypeError)

/-- The elements of an array stored one after the other into a slice. -/
def storeUsers (acc : Users × Option JsonError) (v : JValue) : Users × Option JsonError :=
  (acc.1 ++ [(storeUser acc.2 v).1], (storeUser acc.2 v).2)

def unmarshalUser (data : Bytes) : User × Option JsonError :=
  match parse data with
  | none => (⟨[], [], 0⟩, some .syntaxError)
  | some v => storeUser none v

def unmarshalUsers (data : Bytes) : Users × Option JsonError :=
  match parse data with
  | none => ([], some .syntaxError)
  | some (.arr xs) => xs.foldl storeUsers ([], none)
  | some .null => ([], none)
  | some _ => ([], some .unmarshalTypeError)

/-! ### Encoding -/

/-- The body of a string literal, as `appendString` with HTML escaping writes
it: short escapes for the quote, the backslash, backspace, form feed, line
feed, carriage return and tab, `\u00XX` for the other control bytes and for
the three HTML characters, `\ufffd` for a byte that is not UTF-8, and escapes
for U+2028 and U+2029. -/
def quoteBody : Nat → Bytes → Bytes
  | 0, _ => []
  | _, [] => []
  | n + 1, c :: rest =>
    if c.toNat < 0x80 then
      if c.toNat = 0x22 || c.toNat = 0x5c then 0x5c :: c :: quoteBody n rest
      else if c.toNat = 0x08 then 0x5c :: 0x62 :: quoteBody n rest
      else if c.toNat = 0x0c then 0x5c :: 0x66 :: quoteBody n rest
      else if c.toNat = 0x0a then 0x5c :: 0x6e :: quoteBody n rest
      else if c.toNat = 0x0d then 0x5c :: 0x72 :: quoteBody n rest
      else if c.toNat = 0x09 then 0x5c :: 0x74 :: quoteBody n rest
      else if c.toNat < 0x20 || c.toNat = 0x3c || c.toNat = 0x3e || c.toNat = 0x26 then
        0x5c :: 0x75 :: 0x30 :: 0x30 :: hexDigit (c.toNat / 16) :: hexDigit (c.toNat % 16)
          :: quoteBody n rest
      else c :: quoteBody n rest
    else if (decodeRune (c :: rest)).2 ≤ 1 then
      0x5c :: 0x75 :: 0x66 :: 0x66 :: 0x66 :: 0x64 :: quoteBody n rest
    else if (decodeRune (c :: rest)).1 = 0x2028 || (decodeRune (c :: rest)).1 = 0x2029 then
      0x5c :: 0x75 :: 0x32 :: 0x30 :: 0x32 :: hexDigit ((decodeRune (c :: rest)).1 % 16)
        :: quoteBody n (rest.drop ((decodeRune (c :: rest)).2 - 1))
    else
      (c :: rest).take (decodeRune (c :: rest)).2
        ++ quoteBody n (rest.drop ((decodeRune (c :: rest)).2 - 1))

def quote (s : Bytes) : Bytes := 0x22 :: quoteBody s.length s ++ [0x22]

/-- The decimal digits of a number, most significant first. -/
def digits : Nat → Nat → Bytes
  | 0, _ => []
  | f + 1, n => if n < 10 then [UInt8.ofNat (0x30 + n)]
    else digits f (n / 10) ++ [UInt8.ofNat (0x30 + n % 10)]

def itoa : Int → Bytes
  | .ofNat n => digits (n + 1) n
  | .negSucc n => 0x2d :: digits (n + 2) (n + 1)

def marshalUser (u : User) : Bytes :=
  utf8 "\x7b\"id\":" ++ quote u.Id ++ utf8 ",\"email\":" ++ quote u.Email
    ++ utf8 ",\"age\":" ++ itoa u.Age ++ utf8 "\x7d"

/-- The elements of an array, a comma between neighbours. -/
def marshalElems : Users → Bytes
  | [] => []
  | [u] => marshalUser u
  | u :: rest => marshalUser u ++ utf8 "," ++ marshalElems rest

def marshalUsers (us : Users) : Bytes := utf8 "[" ++ marshalElems us ++ utf8 "]"

end GoJson

/-- Package `encoding/json`, as far as the program uses it. -/
def goJson : Json where
  unmarshalUser := GoJson.unmarshalUser
  unmarshalUsers := GoJson.unmarshalUsers
  marshalUser := GoJson.marshalUser
  marshalUsers := GoJson.marshalUsers

/-- The list a handler loads from a file: what `getUsersArray` decodes from its
contents, a missing file being read as the empty file it is created as. -/
def stored (J : Json) (fs : FS) (fileName : Bytes) : Users :=
  match fs fileName with
  | some b => (J.unmarshalUsers b).1
  | none => (J.unmarshalUsers []).1

/-- The codec reads back the list it wrote. -/
def Json.RoundTrips (J : Json) (us : Users) : Prop :=
  (J.unmarshalUsers (J.marshalUsers us)).1 = us

instance (J : Json) (us : Users) : Decidable (J.RoundTrips us) :=
  inferInstanceAs (Decidable ((J.unmarshalUsers (J.marshalUsers us)).1 = us))

/-- A world with no file, in which files can be created, and nothing written. -/
def World.empty : World := { fs := fun _ => none, dirWritable := fun _ => true, out := [] }

/-- A world with one file, in which files can be created, and nothing written. -/
def World.single (path content : Bytes) : World :=
  { fs := FS.set (fun _ => none) path (some content), dirWritable := fun _ => true, out := [] }

/-- A world with no file and no directory to create one in. -/
def World.noDir : World := { fs := fun _ => none, dirWritable := fun _ => false, out := [] }

/-! ## Inputs used in the examples -/

/-- The path used in the examples. -/
def usersJson : Bytes := utf8 "users.json"

/-- A path in a directory that does not exist. -/
def nodirUsersJson : Bytes := utf8 "nodir/users.json"

/-- Arguments `-operation list -fileName users.json`. -/
def argsList : Arguments := parseArgs (utf8 "list") [] [] usersJson

/-- Arguments `-operation list` with no file name. -/
def argsListNoFile : Arguments := parseArgs (utf8 "list") [] [] []

/-- Arguments with no operation. -/
def argsNoOperation : Arguments := parseArgs [] [] [] usersJson

/-- Arguments `-operation add -fileName users.json` with no item. -/
def argsAddNoItem : Arguments := parseArgs (utf8 "add") [] [] usersJson

/-- Arguments `-operation remove -fileName users.json` with no id. -/
def argsRemoveNoId : Arguments := parseArgs (utf8 "remove") [] [] usersJson

/-- Arguments `-operation update -fileName users.json`. -/
def argsUpdate : Arguments := parseArgs (utf8 "update") [] [] usersJson

/-- Arguments `-operation update` with no file name. -/
def argsUpdateNoFile : Arguments := parseArgs (utf8 "update") [] [] []

/-- A world whose only file holds bytes that are not JSON. -/
def worldNotJson : World := World.single usersJson (utf8 "not json")

/-- Record `1`. -/
def userOne : User := { Id := utf8 "1", Email := utf8 "a", Age := 1 }

/-- Record `2`. -/
def userTwo : User := { Id := utf8 "2", Email := utf8 "b", Age := 2 }

/-- A second record with identifier `1`. -/
def userOneAgain : User := { Id := utf8 "1", Email := utf8 "b", Age := 2 }

/-- A record with the empty identifier. -/
def userNoId : User := { Id := [], Email := utf8 "a", Age := 1 }

/-- Two records whose identifiers are the single bytes `0xff` and `0xfe`:
distinct, and neither is UTF-8. -/
def usersNotUtf8 : Users :=
  [{ Id := [0xff], Email := utf8 "a", Age := 1 }, { Id := [0xfe], Email := utf8 "b", Age := 2 }]

/-- File `[{"id":"1","email":"a","age":1}]`, as written by the program. -/
def fileOne : Bytes := utf8 "[\x7b\"id\":\"1\",\"email\":\"a\",\"age\":1\x7d]"

/-- File `[{"id":"1","email":"a","age":1},{"id":"2","email":"b","age":2}]`. -/
def fileOneTwo : Bytes :=
  utf8 "[\x7b\"id\":\"1\",\"email\":\"a\",\"age\":1\x7d,\x7b\"id\":\"2\",\"email\":\"b\",\"age\":2\x7d]"

/-- File `[{"id":"2","email":"b","age":2}]`. -/
def fileTwo : Bytes := utf8 "[\x7b\"id\":\"2\",\"email\":\"b\",\"age\":2\x7d]"

/-- File `[{"id":"1","email":"a","age":1},{"id":"1","email":"b","age":2}]`: two
records with the same identifier. -/
def fileTwice : Bytes :=
  utf8 "[\x7b\"id\":\"1\",\"email\":\"a\",\"age\":1\x7d,\x7b\"id\":\"1\",\"email\":\"b\",\"age\":2\x7d]"

/-- File `[{"id":"","email":"a","age":1}]`: a record with the empty identifier. -/
def fileNoId : Bytes := utf8 "[\x7b\"id\":\"\",\"email\":\"a\",\"age\":1\x7d]"

/-- The list of `fileOne` written by hand, one field a line (73 bytes):
an opening bracket, the object indented by four blanks, its fields by eight,
and the closing bracket. -/
def filePretty : Bytes :=
  utf8 "[\n    \x7b\n        \"id\": \"1\",\n        \"email\": \"a\",\n        \"age\": 1\n    \x7d\n]"

/-- The serialization of `usersNotUtf8`: both identifiers are written as the
escape of U+FFFD. -/
def fileNotUtf8 : Bytes :=
  utf8 "[\x7b\"id\":\"\\ufffd\",\"email\":\"a\",\"age\":1\x7d,\x7b\"id\":\"\\ufffd\",\"email\":\"b\",\"age\":2\x7d]"

/-- Payload `{"id":"2","email":"b","age":2}`. -/
def itemTwo : Bytes := utf8 "\x7b\"id\":\"2\",\"email\":\"b\",\"age\":2\x7d"

/-- Payload `{"id":"1","email":"b","age":2}`. -/
def itemOneAgain : Bytes := utf8 "\x7b\"id\":\"1\",\"email\":\"b\",\"age\":2\x7d"

/-- Payload `{"id":"2",` which is cut short. -/
def itemCut : Bytes := utf8 "\x7b\"id\":\"2\","

def worldOne : World := World.single usersJson fileOne
def worldOneTwo : World := World.single usersJson fileOneTwo
def worldTwice : World := World.single usersJson fileTwice
def worldNoId : World := World.single usersJson fileNoId
def worldPretty : World := World.single usersJson filePretty
def worldNotUtf8 : World := World.single usersJson fileNotUtf8

/-- A world whose only file is empty. -/
def worldEmptyFile : World := World.single usersJson []

def argsAddTwo : Arguments := parseArgs (utf8 "add") [] itemTwo usersJson
def argsAddOneAgain : Arguments := parseArgs (utf8 "add") [] itemOneAgain usersJson
def argsAddCut : Arguments := parseArgs (utf8 "add") [] itemCut usersJson
def argsFindOne : Arguments := parseArgs (utf8 "findById") (utf8 "1") [] usersJson
def argsFindNine : Arguments := parseArgs (utf8 "findById") (utf8 "9") [] usersJson
def argsFindNoDir : Arguments := parseArgs (utf8 "findById") (utf8 "1") [] nodirUsersJson
def argsRemoveOne : Arguments := parseArgs (utf8 "remove") (utf8 "1") [] usersJson
def argsRemoveNine : Arguments := parseArgs (utf8 "remove") (utf8 "9") [] usersJson
def argsRemoveNoDir : Arguments := parseArgs (utf8 "remove") (utf8 "9") [] nodirUsersJson

/-! ## Lemmas on the handlers -/

theorem utf8_list_ne : utf8 "list" ≠ [] := by decide
theorem utf8_add_ne : utf8 "add" ≠ [] := by decide
theorem utf8_findById_ne : utf8 "findById" ≠ [] := by decide
theorem utf8_remove_ne : utf8 "remove" ≠ [] := by decide

theorem Perform_list (J : Json) (args : Arguments) (w : World)
    (hop : args.get (utf8 "operation") = utf8 "list")
    (hf : args.get (utf8 "fileName") ≠ []) :
    Perform J args w = getList (args.get (utf8 "fileName")) w := by
  simp [Perform, hop, hf, utf8_list_ne]

theorem Perform_add (J : Json) (args : Arguments) (w : World)
    (hop : args.get (utf8 "operation") = utf8 "add")
    (hf : args.get (utf8 "fileName") ≠ []) (hi : args.get (utf8 "item") ≠ []) :
    Perform J args w = addUser J (args.get (utf8 "item")) (args.get (utf8 "fileName")) w := by
  have h1 : utf8 "add" ≠ utf8 "list" := by decide
  simp [Perform, hop, hf, hi, utf8_add_ne, h1]

theorem Perform_findById (J : Json) (args : Arguments) (w : World)
    (hop : args.get (utf8 "operation") = utf8 "findById")
    (hf : args.get (utf8 "fileName") ≠ []) (hi : args.get (utf8 "id") ≠ []) :
    Perform J args w
      = findUserById J (args.get (utf8 "id")) (args.get (utf8 "fileName")) w := by
  have h1 : utf8 "findById" ≠ utf8 "list" := by decide
  have h2 : utf8 "findById" ≠ utf8 "add" := by decide
  simp [Perform, hop, hf, hi, utf8_findById_ne, h1, h2]

theorem Perform_remove (J : Json) (args : Arguments) (w : World)
    (hop : args.get (utf8 "operation") = utf8 "remove")
    (hf : args.get (utf8 "fileName") ≠ []) (hi : args.get (utf8 "id") ≠ []) :
    Perform J args w
      = removeUser J (args.get (utf8 "id")) (args.get (utf8 "fileName")) w := by
  have h1 : utf8 "remove" ≠ utf8 "list" := by decide
  have h2 : utf8 "remove" ≠ utf8 "add" := by decide
  have h3 : utf8 "remove" ≠ utf8 "findById" := by decide
  simp [Perform, hop, hf, hi, utf8_remove_ne, h1, h2, h3]

theorem Perform_no_operation (J : Json) (args : Arguments) (w : World)
    (hop : args.get (utf8 "operation") = []) :
    Perform J args w = (some ErrOperation, w) := by
  simp [Perform, hop]

theorem Perform_no_file (J : Json) (args : Arguments) (w : World)
    (hop : args.get (utf8 "operation") ≠ []) (hf : args.get (utf8 "fileName") = []) :
    Perform J args w = (some ErrFlagName, w) := by
  simp [Perform, hop, hf]

theorem Perform_add_no_item (J : Json) (args : Arguments) (w : World)
    (hop : args.get (utf8 "operation") = utf8 "add")
    (hf : args.get (utf8 "fileName") ≠ []) (hi : args.get (utf8 "item") = []) :
    Perform J args w = (some ErrItem, w) := by
  have h1 : utf8 "add" ≠ utf8 "list" := by decide
  simp [Perform, hop, hf, hi, utf8_add_ne, h1]

theorem Perform_findById_no_id (J : Json) (args : Arguments) (w : World)
    (hop : args.get (utf8 "operation") = utf8 "findById")
    (hf : args.get (utf8 "fileName") ≠ []) (hi : args.get (utf8 "id") = []) :
    Perform J args w = (some ErrId, w) := by
  have h1 : utf8 "findById" ≠ utf8 "list" := by decide
  have h2 : utf8 "findById" ≠ utf8 "add" := by decide
  simp [Perform, hop, hf, hi, utf8_findById_ne, h1, h2]

theorem Perform_remove_no_id (J : Json) (args : Arguments) (w : World)
    (hop : args.get (utf8 "operation") = utf8 "remove")
    (hf : args.get (utf8 "fileName") ≠ []) (hi : args.get (utf8 "id") = []) :
    Perform J args w = (some ErrId, w) := by
  have h1 : utf8 "remove" ≠ utf8 "list" := by decide
  have h2 : utf8 "remove" ≠ utf8 "add" := by decide
  have h3 : utf8 "remove" ≠ utf8 "findById" := by decide
  simp [Perform, hop, hf, hi, utf8_remove_ne, h1, h2, h3]

theorem Perform_other (J : Json) (args : Arguments) (w : World)
    (hne : args.get (utf8 "operation") ≠ [])
    (hf : args.get (utf8 "fileName") ≠ [])
    (h1 : args.get (utf8 "operation") ≠ utf8 "list")
    (h2 : args.get (utf8 "operation") ≠ utf8 "add")
    (h3 : args.get (utf8 "operation") ≠ utf8 "findById")
    (h4 : args.get (utf8 "operation") ≠ utf8 "remove") :
    Perform J args w
      = (some (.new (utf8 "Operation " ++ args.get (utf8 "operation")
                      ++ utf8 " not allowed!")), w) := by
  simp [Perform, hne, hf, h1, h2, h3, h4]

/-- What `getList` does, by the state of the file. -/
theorem getList_eq (fileName : Bytes) (w : World) :
    getList fileName w =
      match w.fs fileName with
      | some b => (none, { w with out := w.out ++ b })
      | none => (some (.notExist fileName), w) := by
  unfold getList osOpenFile ioReadAll writerWrite
  cases h : w.fs fileName <;> simp [h]

/-- A file that exists is opened and decoded; nothing changes. -/
theorem getUsersArray_exists (J : Json) (dw : Bytes → Bool) (fileName b : Bytes) (fs : FS)
    (hb : fs fileName = some b) :
    getUsersArray J dw fileName fs = (.ok (J.unmarshalUsers b).1, fs) := by
  unfold getUsersArray osOpenFile ioReadAll
  simp [hb]

/-- A missing file is created empty when its directory allows it. -/
theorem getUsersArray_create (J : Json) (dw : Bytes → Bool) (fileName : Bytes) (fs : FS)
    (hb : fs fileName = none) (hd : dw fileName = true) :
    getUsersArray J dw fileName fs
      = (.ok (J.unmarshalUsers []).1, fs.set fileName (some [])) := by
  unfold getUsersArray osOpenFile ioReadAll
  simp [hb, hd, FS.set]

/-- A missing file that cannot be created is the one failure of `getUsersArray`. -/
theorem getUsersArray_fail (J : Json) (dw : Bytes → Bool) (fileName : Bytes) (fs : FS)
    (hb : fs fileName = none) (hd : dw fileName = false) :
    getUsersArray J dw fileName fs = (.error (.cannotCreate fileName), fs) := by
  unfold getUsersArray osOpenFile
  simp [hb, hd]

@[simp] theorem FS.set_same (fs : FS) (p : Bytes) (c : Option Bytes) : fs.set p c p = c := by
  simp [FS.set]

@[simp] theorem FS.set_set (fs : FS) (p : Bytes) (c d : Option Bytes) :
    (fs.set p c).set p d = fs.set p d := by
  funext q
  by_cases h : q = p <;> simp [FS.set, h]

theorem FS.set_other (fs : FS) (p q : Bytes) (c : Option Bytes) (h : q ≠ p) :
    fs.set p c q = fs q := by
  simp [FS.set, h]

theorem scan_eq_none (id : Bytes) (us : Users) (i : Nat) :
    scan id us i = none ↔ ∀ r ∈ us, r.Id ≠ id := by
  induction us generalizing i with
  | nil => simp [scan]
  | cons u rest ih =>
    by_cases h : u.Id = id
    · simp [scan, h]
    · simp [scan, h, ih]

/-- The loop stops at the first record with the identifier: its index is the
place where `eraseP` removes, and the record is the one `find?` returns. -/
theorem scan_eq_some (id : Bytes) (us : Users) (i k : Nat) (r : User)
    (h : scan id us i = some (k, r)) :
    ∃ j, k = i + j ∧ j < us.length ∧ r.Id = id
      ∧ us.find? (fun u => decide (u.Id = id)) = some r
      ∧ us.take j ++ us.drop (j + 1) = us.eraseP (fun u => decide (u.Id = id)) := by
  induction us generalizing i with
  | nil => simp [scan] at h
  | cons u rest ih =>
    by_cases hu : u.Id = id
    · simp [scan, hu] at h
      obtain ⟨h1, h2⟩ := h
      subst h2
      exact ⟨0, by omega, by simp, hu, by simp [hu], by simp [hu]⟩
    · simp [scan, hu] at h
      obtain ⟨j, hj, hlt, hid, hfind, herase⟩ := ih (i + 1) h
      refine ⟨j + 1, by omega, by simpa using hlt, hid, ?_, ?_⟩
      · simp [List.find?, hu, hfind]
      · simp [hu, herase]

theorem scan_zero_some (id : Bytes) (us : Users) (k : Nat) (r : User)
    (h : scan id us 0 = some (k, r)) :
    k < us.length ∧ r.Id = id
      ∧ us.find? (fun u => decide (u.Id = id)) = some r
      ∧ us.take k ++ us.drop (k + 1) = us.eraseP (fun u => decide (u.Id = id)) := by
  obtain ⟨j, hj, hlt, hid, hfind, herase⟩ := scan_eq_some id us 0 k r h
  have : k = j := by omega
  subst this
  exact ⟨hlt, hid, hfind, herase⟩

/-- A payload that does not parse stops `addUser` before it opens the file. -/
theorem addUser_bad (J : Json) (item fileName : Bytes) (w : World) (e : JsonError)
    (hp : (J.unmarshalUser item).2 = some e) :
    addUser J item fileName w =
      (some (.wrap (utf8 "can\x27t unmarshal json, error = ") (.json e)), w) := by
  unfold addUser
  cases hq : J.unmarshalUser item with
  | mk u err =>
    rw [hq] at hp
    simp only at hp
    subst hp
    rfl

/-- Adding a record whose identifier is stored: a message and nothing else. -/
theorem addUser_dup (J : Json) (item fileName b : Bytes) (w : World) (u : User)
    (hp : J.unmarshalUser item = (u, none)) (hb : w.fs fileName = some b)
    (hdup : ∃ r ∈ (J.unmarshalUsers b).1, r.Id = u.Id) :
    addUser J item fileName w =
      (none, { w with
               out := w.out ++ (utf8 "Item with id " ++ u.Id ++ utf8 " already exists") }) := by
  have hscan : scan u.Id (J.unmarshalUsers b).1 0 ≠ none := by
    intro hn
    obtain ⟨r, hr, hid⟩ := hdup
    exact (scan_eq_none _ _ _).1 hn r hr hid
  unfold addUser
  rw [hp]
  simp only [getUsersArray_exists J _ _ b _ hb]
  cases hsc : scan u.Id (J.unmarshalUsers b).1 0 with
  | none => exact absurd hsc hscan
  | some p => simp [writerWrite]

/-- Adding a record whose identifier is not stored in a file that exists: the
serialization of the longer list is written from offset 0 over the contents. -/
theorem addUser_new (J : Json) (item fileName b : Bytes) (w : World) (u : User)
    (hp : J.unmarshalUser item = (u, none)) (hb : w.fs fileName = some b)
    (hnew : ∀ r ∈ (J.unmarshalUsers b).1, r.Id ≠ u.Id) :
    addUser J item fileName w =
      (none, { w with
               fs := w.fs.set fileName (some
                 (J.marshalUsers ((J.unmarshalUsers b).1 ++ [u])
                   ++ b.drop (J.marshalUsers ((J.unmarshalUsers b).1 ++ [u])).length)) }) := by
  have hscan : scan u.Id (J.unmarshalUsers b).1 0 = none := (scan_eq_none _ _ _).2 hnew
  unfold addUser
  rw [hp]
  simp only [getUsersArray_exists J _ _ b _ hb, hscan]
  simp [osOpenFile, fileWrite, Json.MarshalUsers, hb]

/-- Looking up an identifier in a file that exists: the first record with it
is written, nothing else changes. -/
theorem findUserById_exists (J : Json) (id fileName b : Bytes) (w : World)
    (hb : w.fs fileName = some b) :
    findUserById J id fileName w =
      (none, { w with
               out := w.out ++
                 (match (J.unmarshalUsers b).1.find? (fun u => decide (u.Id = id)) with
                  | some r => J.marshalUser r
                  | none => []) }) := by
  unfold findUserById
  simp only [getUsersArray_exists J _ _ b _ hb]
  cases hsc : scan id (J.unmarshalUsers b).1 0 with
  | none =>
    have hnone := (scan_eq_none _ _ _).1 hsc
    have hf : (J.unmarshalUsers b).1.find? (fun u => decide (u.Id = id)) = none := by
      simpa [List.find?_eq_none] using hnone
    simp [hf]
  | some p =>
    obtain ⟨k, r⟩ := p
    obtain ⟨-, -, hfind, -⟩ := scan_zero_some _ _ _ _ hsc
    simp [hfind, Json.MarshalUser, writerWrite]

/-- Looking up an identifier when the file is missing and can be created: the
file is created empty and the empty contents are searched. -/
theorem findUserById_create (J : Json) (id fileName : Bytes) (w : World)
    (hb : w.fs fileName = none) (hd : w.dirWritable fileName = true) :
    findUserById J id fileName w =
      (none, { w with
               fs := w.fs.set fileName (some []),
               out := w.out ++
                 (match (J.unmarshalUsers []).1.find? (fun u => decide (u.Id = id)) with
                  | some r => J.marshalUser r
                  | none => []) }) := by
  unfold findUserById
  simp only [getUsersArray_create J _ _ _ hb hd]
  cases hsc : scan id (J.unmarshalUsers []).1 0 with
  | none =>
    have hnone := (scan_eq_none _ _ _).1 hsc
    have hf : (J.unmarshalUsers []).1.find? (fun u => decide (u.Id = id)) = none := by
      simpa [List.find?_eq_none] using hnone
    simp [hf]
  | some p =>
    obtain ⟨k, r⟩ := p
    obtain ⟨-, -, hfind, -⟩ := scan_zero_some _ _ _ _ hsc
    simp [hfind, Json.MarshalUser, writerWrite]

/-- Looking up an identifier when the file is missing and cannot be created:
the error of the open, wrapped. -/
theorem findUserById_fail (J : Json) (id fileName : Bytes) (w : World)
    (hb : w.fs fileName = none) (hd : w.dirWritable fileName = false) :
    findUserById J id fileName w =
      (some (.wrap (utf8 "can\x27t get users array from json file, error = ")
              (.cannotCreate fileName)), w) := by
  unfold findUserById
  simp only [getUsersArray_fail J _ _ _ hb hd]

/-- Removing an identifier that is not stored, from a file that exists. -/
theorem removeUser_absent_exists (J : Json) (id fileName b : Bytes) (w : World)
    (hb : w.fs fileName = some b)
    (hno : ∀ r ∈ (J.unmarshalUsers b).1, r.Id ≠ id) :
    removeUser J id fileName w =
      (none, { w with
               out := w.out ++ (utf8 "Item with id " ++ id ++ utf8 " not found") }) := by
  have hscan : scan id (J.unmarshalUsers b).1 0 = none := (scan_eq_none _ _ _).2 hno
  unfold removeUser
  simp [getUsersArray_exists J _ _ b _ hb, hscan, writerWrite]

/-- Removing an identifier when the file is missing and can be created. -/
theorem removeUser_absent_create (J : Json) (id fileName : Bytes) (w : World)
    (hb : w.fs fileName = none) (hd : w.dirWritable fileName = true)
    (hno : ∀ r ∈ (J.unmarshalUsers []).1, r.Id ≠ id) :
    removeUser J id fileName w =
      (none, { w with
               fs := w.fs.set fileName (some []),
               out := w.out ++ (utf8 "Item with id " ++ id ++ utf8 " not found") }) := by
  have hscan : scan id (J.unmarshalUsers []).1 0 = none := (scan_eq_none _ _ _).2 hno
  unfold removeUser
  simp [getUsersArray_create J _ _ _ hb hd, hscan, writerWrite]

/-- Removing an identifier when the file is missing and cannot be created. -/
theorem removeUser_fail (J : Json) (id fileName : Bytes) (w : World)
    (hb : w.fs fileName = none) (hd : w.dirWritable fileName = false) :
    removeUser J id fileName w =
      (some (.wrap (utf8 "can\x27t get users array from json file, error = ")
              (.cannotCreate fileName)), w) := by
  unfold removeUser
  simp only [getUsersArray_fail J _ _ _ hb hd]

/-- Removing an identifier that is stored: the file is replaced by the
serialization of the list without the first record with that identifier,
whether or not the old entry could be removed first. -/
theorem removeUser_found (J : Json) (id fileName b : Bytes) (w : World)
    (hb : w.fs fileName = some b)
    (hyes : ∃ r ∈ (J.unmarshalUsers b).1, r.Id = id) :
    removeUser J id fileName w =
      (none, { w with
               fs := w.fs.set fileName (some (J.marshalUsers
                 ((J.unmarshalUsers b).1.eraseP (fun u => decide (u.Id = id))))) }) := by
  unfold removeUser
  simp only [getUsersArray_exists J _ _ b _ hb]
  cases hsc : scan id (J.unmarshalUsers b).1 0 with
  | none =>
    obtain ⟨r, hr, hid⟩ := hyes
    exact absurd hid ((scan_eq_none _ _ _).1 hsc r hr)
  | some p =>
    obtain ⟨k, r⟩ := p
    obtain ⟨-, -, -, herase⟩ := scan_zero_some _ _ _ _ hsc
    cases hd : w.dirWritable fileName <;>
      simp [osRemove, osOpenFile, fileWrite, Json.MarshalUsers, herase, hb, hd]

/-- In a list with pairwise distinct identifiers, removing the first record
with an identifier leaves no record with it. -/
theorem eraseP_no_id (id : Bytes) (us : Users) (h : (us.map User.Id).Nodup) :
    ∀ r ∈ us.eraseP (fun u => decide (u.Id = id)), r.Id ≠ id := by
  induction us with
  | nil => simp
  | cons u rest ih =>
    simp only [List.map_cons, List.nodup_cons] at h
    by_cases hu : u.Id = id
    · intro r hr
      simp [hu] at hr
      intro hid
      exact h.1 (by rw [hu, ← hid]; exact List.mem_map_of_mem _ hr)
    · intro r hr
      simp [hu] at hr
      rcases hr with hr | hr
      · rw [hr]; exact hu
      · exact ih h.2 r hr

theorem length_eraseP_id (id : Bytes) (us : Users) (h : ∃ r ∈ us, r.Id = id) :
    (us.eraseP (fun u => decide (u.Id = id))).length + 1 = us.length := by
  obtain ⟨r, hr, hid⟩ := h
  have h1 := List.length_eraseP_of_mem (p := fun u => decide (u.Id = id)) hr (by simp [hid])
  have h2 : 0 < us.length := List.length_pos_of_mem hr
  omega

/-! ## The dispatcher and `list` -/

/-- C7: with operation `list` and a file name, an existing file with contents
`b` (any bytes) gives no error, exactly `b` on the output and the same files;
a missing file gives an error, no output, and is not created. -/
theorem list_echoes_file (J : Json) (args : Arguments) (w : World)
    (hop : args.get (utf8 "operation") = utf8 "list")
    (hf : args.get (utf8 "fileName") ≠ []) :
    (∀ b, w.fs (args.get (utf8 "fileName")) = some b →
        Perform J args w = (none, { w with out := w.out ++ b })) ∧
    (w.fs (args.get (utf8 "fileName")) = none →
        Perform J args w = (some (.notExist (args.get (utf8 "fileName"))), w)) := by
  rw [Perform_list J args w hop hf, getList_eq]
  constructor
  · intro b hb
    simp [hb]
  · intro hb
    simp [hb]

theorem list_echoes_file_witness :
    (argsList.get (utf8 "operation") = utf8 "list" ∧ argsList.get (utf8 "fileName") ≠ []
      ∧ worldNotJson.fs (argsList.get (utf8 "fileName")) = some (utf8 "not json")
      ∧ World.empty.fs (argsList.get (utf8 "fileName")) = none)
    ∧ Perform goJson argsList worldNotJson
        = (none, { worldNotJson with out := worldNotJson.out ++ utf8 "not json" })
    ∧ Perform goJson argsList World.empty
        = (some (.notExist (argsList.get (utf8 "fileName"))), World.empty) :=
  ⟨⟨by decide, by decide, by decide, by decide⟩,
   (list_echoes_file goJson argsList worldNotJson (by decide) (by decide)).1
      (utf8 "not json") (by decide),
   (list_echoes_file goJson argsList World.empty (by decide) (by decide)).2 (by decide)⟩

/-- C8: a missing parameter is reported by its own error, in this order:
`ErrOperation` for an empty operation, else `ErrFlagName` for an empty file
name, else `ErrItem` for `add` without item and `ErrId` for `findById` or
`remove` without id; each time the files and the output are as before. -/
theorem missing_parameter_errors (J : Json) (args : Arguments) (w : World) :
    (args.get (utf8 "operation") = [] → Perform J args w = (some ErrOperation, w)) ∧
    (args.get (utf8 "operation") ≠ [] → args.get (utf8 "fileName") = [] →
        Perform J args w = (some ErrFlagName, w)) ∧
    (args.get (utf8 "operation") = utf8 "add" → args.get (utf8 "fileName") ≠ [] →
        args.get (utf8 "item") = [] → Perform J args w = (some ErrItem, w)) ∧
    ((args.get (utf8 "operation") = utf8 "findById"
          ∨ args.get (utf8 "operation") = utf8 "remove") →
        args.get (utf8 "fileName") ≠ [] → args.get (utf8 "id") = [] →
        Perform J args w = (some ErrId, w)) := by
  refine ⟨?_, ?_, ?_, ?_⟩
  · exact Perform_no_operation J args w
  · exact Perform_no_file J args w
  · exact Perform_add_no_item J args w
  · intro hop hf hi
    rcases hop with hop | hop
    · exact Perform_findById_no_id J args w hop hf hi
    · exact Perform_remove_no_id J args w hop hf hi

theorem missing_parameter_errors_witness :
    Perform goJson argsNoOperation worldNotJson = (some ErrOperation, worldNotJson)
    ∧ Perform goJson argsListNoFile worldNotJson = (some ErrFlagName, worldNotJson)
    ∧ Perform goJson argsAddNoItem worldNotJson = (some ErrItem, worldNotJson)
    ∧ Perform goJson argsRemoveNoId worldNotJson = (some ErrId, worldNotJson) :=
  ⟨(missing_parameter_errors goJson argsNoOperation worldNotJson).1 (by decide),
   (missing_parameter_errors goJson argsListNoFile worldNotJson).2.1 (by decide) (by decide),
   (missing_parameter_errors goJson argsAddNoItem worldNotJson).2.2.1
      (by decide) (by decide) (by decide),
   (missing_parameter_errors goJson argsRemoveNoId worldNotJson).2.2.2
      (Or.inr (by decide)) (by decide) (by decide)⟩

/-- C9, as stated, fails: with operation `update` and no file name the error
is `ErrFlagName`, not the one that names the operation. -/
theorem unknown_operation_without_file :
    argsUpdateNoFile.get (utf8 "operation") ≠ []
    ∧ argsUpdateNoFile.get (utf8 "operation") ≠ utf8 "list"
    ∧ argsUpdateNoFile.get (utf8 "operation") ≠ utf8 "add"
    ∧ argsUpdateNoFile.get (utf8 "operation") ≠ utf8 "findById"
    ∧ argsUpdateNoFile.get (utf8 "operation") ≠ utf8 "remove"
    ∧ (Perform goJson argsUpdateNoFile World.empty).1 = some ErrFlagName
    ∧ (Perform goJson argsUpdateNoFile World.empty).1
        ≠ some (.new (utf8 "Operation update not allowed!")) := by
  decide

/-- C9, amended: a non-empty operation that is none of `list`, `add`,
`findById` and `remove`, given with a non-empty file name, fails with the
error "Operation <name> not allowed!", the files and the output as before. -/
theorem unknown_operation_rejected (J : Json) (args : Arguments) (w : World)
    (hne : args.get (utf8 "operation") ≠ [])
    (hf : args.get (utf8 "fileName") ≠ [])
    (h1 : args.get (utf8 "operation") ≠ utf8 "list")
    (h2 : args.get (utf8 "operation") ≠ utf8 "add")
    (h3 : args.get (utf8 "operation") ≠ utf8 "findById")
    (h4 : args.get (utf8 "operation") ≠ utf8 "remove") :
    Perform J args w
      = (some (.new (utf8 "Operation " ++ args.get (utf8 "operation")
                      ++ utf8 " not allowed!")), w) :=
  Perform_other J args w hne hf h1 h2 h3 h4

theorem unknown_operation_rejected_witness :
    (argsUpdate.get (utf8 "operation") ≠ [] ∧ argsUpdate.get (utf8 "fileName") ≠ []
      ∧ argsUpdate.get (utf8 "operation") ≠ utf8 "list"
      ∧ argsUpdate.get (utf8 "operation") ≠ utf8 "add"
      ∧ argsUpdate.get (utf8 "operation") ≠ utf8 "findById"
      ∧ argsUpdate.get (utf8 "operation") ≠ utf8 "remove")
    ∧ Perform goJson argsUpdate worldNotJson
        = (some (.new (utf8 "Operation " ++ argsUpdate.get (utf8 "operation")
                        ++ utf8 " not allowed!")), worldNotJson) :=
  ⟨by decide,
   unknown_operation_rejected goJson argsUpdate worldNotJson
     (by decide) (by decide) (by decide) (by decide) (by decide) (by decide)⟩

/-! ## `add` -/

/-- C1, at a file written by hand: the list of `fileOne` laid out one field a
line takes 73 bytes, the serialization of the list with the new record 63, and
`addUser` opens the file without truncating it.  The call returns no error,
the file then holds the new serialization followed by the last ten bytes of
the old contents, which is not the serialization of the longer list and no
longer decodes to any record. -/
theorem add_keeps_tail_of_longer_file :
    goJson.unmarshalUser itemTwo = (userTwo, none)
    ∧ stored goJson worldPretty.fs usersJson = [userOne]
    ∧ (Perform goJson argsAddTwo worldPretty).1 = none
    ∧ (Perform goJson argsAddTwo worldPretty).2.out = []
    ∧ (Perform goJson argsAddTwo worldPretty).2.fs usersJson
        = some (goJson.marshalUsers [userOne, userTwo] ++ utf8 " 1\n    \x7d\n]")
    ∧ (Perform goJson argsAddTwo worldPretty).2.fs usersJson
        ≠ some (goJson.marshalUsers [userOne, userTwo])
    ∧ stored goJson (Perform goJson argsAddTwo worldPretty).2.fs usersJson = [] := by
  set_option maxRecDepth 100000 in decide

/-- C4: with operation `add`, a file name and a payload that parses as a
record whose identifier is that of a record stored in the file, `Perform`
returns no error, writes exactly "Item with id <id> already exists", and
leaves the files as they were. -/
theorem add_duplicate_reports (J : Json) (args : Arguments) (w : World) (u : User)
    (b : Bytes)
    (hop : args.get (utf8 "operation") = utf8 "add")
    (hf : args.get (utf8 "fileName") ≠ [])
    (hi : args.get (utf8 "item") ≠ [])
    (hp : J.unmarshalUser (args.get (utf8 "item")) = (u, none))
    (hb : w.fs (args.get (utf8 "fileName")) = some b)
    (hdup : ∃ r ∈ (J.unmarshalUsers b).1, r.Id = u.Id) :
    Perform J args w =
      (none, { w with
               out := w.out ++ (utf8 "Item with id " ++ u.Id ++ utf8 " already exists") }) := by
  rw [Perform_add J args w hop hf hi]
  exact addUser_dup J _ _ b w u hp hb hdup

theorem add_duplicate_reports_witness :
    (argsAddOneAgain.get (utf8 "operation") = utf8 "add"
      ∧ argsAddOneAgain.get (utf8 "fileName") ≠ []
      ∧ argsAddOneAgain.get (utf8 "item") ≠ []
      ∧ goJson.unmarshalUser (argsAddOneAgain.get (utf8 "item")) = (userOneAgain, none)
      ∧ worldOne.fs (argsAddOneAgain.get (utf8 "fileName")) = some fileOne
      ∧ ∃ r ∈ (goJson.unmarshalUsers fileOne).1, r.Id = userOneAgain.Id)
    ∧ Perform goJson argsAddOneAgain worldOne =
        (none, { worldOne with
                 out := worldOne.out
                   ++ (utf8 "Item with id " ++ userOneAgain.Id ++ utf8 " already exists") }) :=
  ⟨by set_option maxRecDepth 100000 in decide,
   add_duplicate_reports goJson argsAddOneAgain worldOne userOneAgain fileOne
     (by decide) (by decide) (by decide) (by set_option maxRecDepth 100000 in decide)
     (by decide) (by set_option maxRecDepth 100000 in decide)⟩

/-- C3, as stated, fails: the contents of an empty file do not parse, yet
`remove` returns no error and writes a message. -/
theorem unparsable_file_is_not_an_error :
    (goJson.unmarshalUsers []).2 = some .syntaxError
    ∧ worldEmptyFile.fs usersJson = some []
    ∧ (Perform goJson argsRemoveOne worldEmptyFile).1 = none
    ∧ (Perform goJson argsRemoveOne worldEmptyFile).2.out = utf8 "Item with id 1 not found" := by
  set_option maxRecDepth 100000 in decide

/-- C3, amended: with operation `add` and a file name, an item payload that
fails to parse (the empty payload included) makes `Perform` return an error,
with the files (a missing file is not created) and the output as they were. -/
theorem add_rejects_unparsable_item (J : Json) (args : Arguments) (w : World)
    (e : JsonError)
    (hop : args.get (utf8 "operation") = utf8 "add")
    (hf : args.get (utf8 "fileName") ≠ [])
    (hp : (J.unmarshalUser (args.get (utf8 "item"))).2 = some e) :
    Perform J args w =
      (some (if args.get (utf8 "item") = [] then ErrItem
             else .wrap (utf8 "can\x27t unmarshal json, error = ") (.json e)), w) := by
  by_cases hi : args.get (utf8 "item") = []
  · rw [Perform_add_no_item J args w hop hf hi]
    simp [hi]
  · rw [Perform_add J args w hop hf hi, addUser_bad J _ _ w e hp]
    simp [hi]

theorem add_rejects_unparsable_item_witness :
    (argsAddCut.get (utf8 "operation") = utf8 "add"
      ∧ argsAddCut.get (utf8 "fileName") ≠ []
      ∧ (goJson.unmarshalUser (argsAddCut.get (utf8 "item"))).2 = some .syntaxError)
    ∧ Perform goJson argsAddCut World.empty =
        (some (if argsAddCut.get (utf8 "item") = [] then ErrItem
               else .wrap (utf8 "can\x27t unmarshal json, error = ") (.json .syntaxError)),
          World.empty) :=
  ⟨by set_option maxRecDepth 100000 in decide,
   add_rejects_unparsable_item goJson argsAddCut World.empty .syntaxError
     (by decide) (by decide) (by set_option maxRecDepth 100000 in decide)⟩

/-! ## `findById` -/

/-- C6, as stated, fails: when the file is missing and its directory does not
exist, `findById` returns the error of the open that could not create it. -/
theorem find_fails_without_directory :
    argsFindNoDir.get (utf8 "id") ≠ []
    ∧ World.noDir.fs nodirUsersJson = none
    ∧ World.noDir.dirWritable nodirUsersJson = false
    ∧ (Perform goJson argsFindNoDir World.noDir).1
        = some (.wrap (utf8 "can\x27t get users array from json file, error = ")
            (.cannotCreate nodirUsersJson))
    ∧ (Perform goJson argsFindNoDir World.noDir).1 ≠ none := by
  decide

/-- C6, amended: with operation `findById`, a file name and a non-empty id,
when the file exists or can be created `Perform` returns no error, writes
exactly the serialization of the first stored record with the identifier
when there is one, and writes nothing when there is none; when the file is
missing and cannot be created it returns the wrapped error of the open and
leaves the files and the output as they were. -/
theorem find_writes_first_match (J : Json) (args : Arguments) (w : World)
    (hop : args.get (utf8 "operation") = utf8 "findById")
    (hf : args.get (utf8 "fileName") ≠ [])
    (hi : args.get (utf8 "id") ≠ []) :
    ((w.fs (args.get (utf8 "fileName")) ≠ none
        ∨ w.dirWritable (args.get (utf8 "fileName")) = true) →
      (Perform J args w).1 = none
      ∧ (∀ r, (stored J w.fs (args.get (utf8 "fileName"))).find?
                (fun u => decide (u.Id = args.get (utf8 "id"))) = some r →
            (Perform J args w).2.out = w.out ++ J.marshalUser r)
      ∧ ((∀ r ∈ stored J w.fs (args.get (utf8 "fileName")),
              r.Id ≠ args.get (utf8 "id")) →
            (Perform J args w).2.out = w.out))
    ∧ (w.fs (args.get (utf8 "fileName")) = none →
        w.dirWritable (args.get (utf8 "fileName")) = false →
        Perform J args w =
          (some (.wrap (utf8 "can\x27t get users array from json file, error = ")
                  (.cannotCreate (args.get (utf8 "fileName")))), w)) := by
  rw [Perform_findById J args w hop hf hi]
  constructor
  · intro hex
    have key : ∃ fs1,
        findUserById J (args.get (utf8 "id")) (args.get (utf8 "fileName")) w =
          (none, { w with
                   fs := fs1,
                   out := w.out ++
                     (match (stored J w.fs (args.get (utf8 "fileName"))).find?
                        (fun u => decide (u.Id = args.get (utf8 "id"))) with
                      | some r => J.marshalUser r
                      | none => []) }) := by
      cases hb : w.fs (args.get (utf8 "fileName")) with
      | some b =>
        exact ⟨w.fs, by rw [findUserById_exists J _ _ b w hb]; simp [stored, hb]⟩
      | none =>
        have hd : w.dirWritable (args.get (utf8 "fileName")) = true := by
          rcases hex with h | h
          · exact absurd hb h
          · exact h
        exact ⟨w.fs.set (args.get (utf8 "fileName")) (some []),
          by rw [findUserById_create J _ _ w hb hd]; simp [stored, hb]⟩
    obtain ⟨fs1, hk⟩ := key
    rw [hk]
    refine ⟨rfl, ?_, ?_⟩
    · intro r hr
      simp [hr]
    · intro hno
      have hnone : (stored J w.fs (args.get (utf8 "fileName"))).find?
          (fun u => decide (u.Id = args.get (utf8 "id"))) = none := by
        simpa [List.find?_eq_none] using hno
      simp [hnone]
  · intro hb hd
    exact findUserById_fail J _ _ w hb hd

theorem find_writes_first_match_witness :
    (argsFindOne.get (utf8 "operation") = utf8 "findById"
      ∧ argsFindOne.get (utf8 "fileName") ≠ [] ∧ argsFindOne.get (utf8 "id") ≠ []
      ∧ worldTwice.fs (argsFindOne.get (utf8 "fileName")) ≠ none
      ∧ (stored goJson worldTwice.fs (argsFindOne.get (utf8 "fileName"))).find?
          (fun u => decide (u.Id = argsFindOne.get (utf8 "id"))) = some userOne
      ∧ goJson.marshalUser userOne = utf8 "\x7b\"id\":\"1\",\"email\":\"a\",\"age\":1\x7d")
    ∧ (Perform goJson argsFindOne worldTwice).1 = none
    ∧ (Perform goJson argsFindOne worldTwice).2.out
        = worldTwice.out ++ goJson.marshalUser userOne :=
  ⟨by set_option maxRecDepth 100000 in decide,
   ((find_writes_first_match goJson argsFindOne worldTwice
      (by decide) (by decide) (by decide)).1 (Or.inl (by decide))).1,
   ((find_writes_first_match goJson argsFindOne worldTwice
      (by decide) (by decide) (by decide)).1 (Or.inl (by decide))).2.1 userOne
      (by set_option maxRecDepth 100000 in decide)⟩

/-! ## `remove` -/

/-- C5, as stated, fails: with no file, `remove` of an identifier that is not
stored creates the file. -/
theorem remove_absent_creates_file :
    World.empty.fs usersJson = none
    ∧ (∀ r ∈ stored goJson World.empty.fs usersJson, r.Id ≠ utf8 "9")
    ∧ (Perform goJson argsRemoveNine World.empty).1 = none
    ∧ (Perform goJson argsRemoveNine World.empty).2.fs usersJson = some []
    ∧ (Perform goJson argsRemoveNine World.empty).2.fs usersJson
        ≠ World.empty.fs usersJson := by
  set_option maxRecDepth 100000 in decide

/-- C5, amended: with operation `remove`, a file name and a non-empty id that
no stored record has: when the file exists, `Perform` returns no error, writes
exactly "Item with id <id> not found" and leaves the files as they were; when
the file is missing and can be created, it returns no error, writes the same
message and creates the file empty; when the file is missing and cannot be
created, it returns the wrapped error of the open, writes nothing and creates
nothing. -/
theorem remove_absent_reports (J : Json) (args : Arguments) (w : World)
    (hop : args.get (utf8 "operation") = utf8 "remove")
    (hf : args.get (utf8 "fileName") ≠ [])
    (hi : args.get (utf8 "id") ≠ []) :
    (∀ b, w.fs (args.get (utf8 "fileName")) = some b →
        (∀ r ∈ (J.unmarshalUsers b).1, r.Id ≠ args.get (utf8 "id")) →
        Perform J args w =
          (none, { w with
                   out := w.out ++ (utf8 "Item with id " ++ args.get (utf8 "id")
                     ++ utf8 " not found") }))
    ∧ (w.fs (args.get (utf8 "fileName")) = none →
        w.dirWritable (args.get (utf8 "fileName")) = true →
        (∀ r ∈ (J.unmarshalUsers []).1, r.Id ≠ args.get (utf8 "id")) →
        Perform J args w =
          (none, { w with
                   fs := w.fs.set (args.get (utf8 "fileName")) (some []),
                   out := w.out ++ (utf8 "Item with id " ++ args.get (utf8 "id")
                     ++ utf8 " not found") }))
    ∧ (w.fs (args.get (utf8 "fileName")) = none →
        w.dirWritable (args.get (utf8 "fileName")) = false →
        Perform J args w =
          (some (.wrap (utf8 "can\x27t get users array from json file, error = ")
                  (.cannotCreate (args.get (utf8 "fileName")))), w)) := by
  rw [Perform_remove J args w hop hf hi]
  refine ⟨?_, ?_, ?_⟩
  · intro b hb hno
    exact removeUser_absent_exists J _ _ b w hb hno
  · intro hb hd hno
    exact removeUser_absent_create J _ _ w hb hd hno
  · intro hb hd
    exact removeUser_fail J _ _ w hb hd

theorem remove_absent_reports_witness :
    (argsRemoveNine.get (utf8 "operation") = utf8 "remove"
      ∧ argsRemoveNine.get (utf8 "fileName") ≠ [] ∧ argsRemoveNine.get (utf8 "id") ≠ []
      ∧ worldOne.fs (argsRemoveNine.get (utf8 "fileName")) = some fileOne
      ∧ (∀ r ∈ (goJson.unmarshalUsers fileOne).1, r.Id ≠ argsRemoveNine.get (utf8 "id"))
      ∧ argsRemoveNoDir.get (utf8 "operation") = utf8 "remove"
      ∧ argsRemoveNoDir.get (utf8 "fileName") ≠ [] ∧ argsRemoveNoDir.get (utf8 "id") ≠ []
      ∧ World.noDir.fs (argsRemoveNoDir.get (utf8 "fileName")) = none
      ∧ World.noDir.dirWritable (argsRemoveNoDir.get (utf8 "fileName")) = false)
    ∧ Perform goJson argsRemoveNine worldOne =
        (none, { worldOne with
                 out := worldOne.out ++ (utf8 "Item with id "
                   ++ argsRemoveNine.get (utf8 "id") ++ utf8 " not found") })
    ∧ Perform goJson argsRemoveNoDir World.noDir =
        (some (.wrap (utf8 "can\x27t get users array from json file, error = ")
                (.cannotCreate (argsRemoveNoDir.get (utf8 "fileName")))), World.noDir) :=
  ⟨by set_option maxRecDepth 100000 in decide,
   (remove_absent_reports goJson argsRemoveNine worldOne (by decide) (by decide)
      (by decide)).1 fileOne (by decide) (by set_option maxRecDepth 100000 in decide),
   (remove_absent_reports goJson argsRemoveNoDir World.noDir (by decide) (by decide)
      (by decide)).2.2 (by decide) (by decide)⟩

/-- C2, as stated, fails twice.  A file that stores two records with
identifier `1` still stores one after `remove` of `1`; and a file that stores a
record with the empty identifier makes `remove` of that identifier return
`ErrId`. -/
theorem remove_leaves_second_match :
    (∃ r ∈ stored goJson worldTwice.fs usersJson, r.Id = utf8 "1")
    ∧ (Perform goJson argsRemoveOne worldTwice).1 = none
    ∧ (Perform goJson argsRemoveOne worldTwice).2.fs usersJson
        = some (goJson.marshalUsers [userOneAgain])
    ∧ (∃ r ∈ stored goJson (Perform goJson argsRemoveOne worldTwice).2.fs usersJson,
        r.Id = utf8 "1")
    ∧ (∃ r ∈ stored goJson worldNoId.fs usersJson, r.Id = argsRemoveNoId.get (utf8 "id"))
    ∧ (Perform goJson argsRemoveNoId worldNoId).1 = some ErrId := by
  set_option maxRecDepth 100000 in decide

/-- C2, amended: with operation `remove`, a file name and a non-empty id that
some record stored in the file has, `Perform` returns no error, writes
nothing, and the file then holds exactly the serialization of the stored list
without its first record with that identifier; that list is one record
shorter than the stored one, and no record of it has the identifier when the
stored identifiers were pairwise distinct. -/
theorem remove_erases_first_match (J : Json) (args : Arguments) (w : World) (b : Bytes)
    (hop : args.get (utf8 "operation") = utf8 "remove")
    (hf : args.get (utf8 "fileName") ≠ [])
    (hi : args.get (utf8 "id") ≠ [])
    (hb : w.fs (args.get (utf8 "fileName")) = some b)
    (hyes : ∃ r ∈ (J.unmarshalUsers b).1, r.Id = args.get (utf8 "id")) :
    Perform J args w =
      (none, { w with
               fs := w.fs.set (args.get (utf8 "fileName")) (some (J.marshalUsers
                 ((J.unmarshalUsers b).1.eraseP
                   (fun u => decide (u.Id = args.get (utf8 "id")))))) })
    ∧ ((J.unmarshalUsers b).1.eraseP
          (fun u => decide (u.Id = args.get (utf8 "id")))).length + 1
        = (J.unmarshalUsers b).1.length
    ∧ (((J.unmarshalUsers b).1.map User.Id).Nodup →
        ∀ r ∈ (J.unmarshalUsers b).1.eraseP
            (fun u => decide (u.Id = args.get (utf8 "id"))),
          r.Id ≠ args.get (utf8 "id")) := by
  rw [Perform_remove J args w hop hf hi, removeUser_found J _ _ b w hb hyes]
  exact ⟨rfl, length_eraseP_id _ _ hyes, fun hnd => eraseP_no_id _ _ hnd⟩

theorem remove_erases_first_match_witness :
    (argsRemoveOne.get (utf8 "operation") = utf8 "remove"
      ∧ argsRemoveOne.get (utf8 "fileName") ≠ [] ∧ argsRemoveOne.get (utf8 "id") ≠ []
      ∧ worldOneTwo.fs (argsRemoveOne.get (utf8 "fileName")) = some fileOneTwo
      ∧ (∃ r ∈ (goJson.unmarshalUsers fileOneTwo).1, r.Id = argsRemoveOne.get (utf8 "id"))
      ∧ (goJson.unmarshalUsers fileOneTwo).1 = [userOne, userTwo]
      ∧ (goJson.unmarshalUsers fileOneTwo).1.eraseP
          (fun u => decide (u.Id = argsRemoveOne.get (utf8 "id"))) = [userTwo]
      ∧ goJson.marshalUsers [userTwo] = fileTwo)
    ∧ Perform goJson argsRemoveOne worldOneTwo =
        (none, { worldOneTwo with
                 fs := worldOneTwo.fs.set (argsRemoveOne.get (utf8 "fileName"))
                   (some (goJson.marshalUsers
                     ((goJson.unmarshalUsers fileOneTwo).1.eraseP
                       (fun u => decide (u.Id = argsRemoveOne.get (utf8 "id")))))) }) :=
  ⟨by set_option maxRecDepth 100000 in decide,
   (remove_erases_first_match goJson argsRemoveOne worldOneTwo fileOneTwo
      (by decide) (by decide) (by decide) (by decide)
      (by set_option maxRecDepth 100000 in decide)).1⟩

/-! ## Uniqueness of identifiers -/

/-- The invariant for every codec: when the file holds the serialization of a
list with pairwise distinct identifiers which the codec reads back, and the
codec also reads back the list with the decoded item appended and the list
without the first record with the given id, and writes the longer list in no
fewer bytes, the contents of the file still decode to pairwise distinct
identifiers after `Perform`. -/
theorem distinct_ids_of_roundtrips (J : Json) (args : Arguments) (w : World) (us : Users)
    (hfile : w.fs (args.get (utf8 "fileName")) = some (J.marshalUsers us))
    (hnd : (us.map User.Id).Nodup)
    (hrt : J.RoundTrips us)
    (hrtAdd : J.RoundTrips (us ++ [(J.unmarshalUser (args.get (utf8 "item"))).1]))
    (hgrow : (J.marshalUsers us).length
        ≤ (J.marshalUsers (us ++ [(J.unmarshalUser (args.get (utf8 "item"))).1])).length)
    (hrtRem : J.RoundTrips (us.eraseP (fun u => decide (u.Id = args.get (utf8 "id"))))) :
    ∀ b, (Perform J args w).2.fs (args.get (utf8 "fileName")) = some b →
      ((J.unmarshalUsers b).1.map User.Id).Nodup := by
  have hdec : (J.unmarshalUsers (J.marshalUsers us)).1 = us := hrt
  have keep : ∀ r : Option GoError × World, r.2.fs = w.fs →
      ∀ b, r.2.fs (args.get (utf8 "fileName")) = some b →
        ((J.unmarshalUsers b).1.map User.Id).Nodup := by
    intro r hr b hb
    rw [hr, hfile] at hb
    injection hb with hb
    subst hb
    rw [hdec]
    exact hnd
  by_cases h0 : args.get (utf8 "operation") = []
  · rw [Perform_no_operation J args w h0]
    exact keep _ rfl
  by_cases hf : args.get (utf8 "fileName") = []
  · rw [Perform_no_file J args w h0 hf]
    exact keep _ rfl
  by_cases h1 : args.get (utf8 "operation") = utf8 "list"
  · rw [Perform_list J args w h1 hf, getList_eq, hfile]
    exact keep _ rfl
  by_cases h2 : args.get (utf8 "operation") = utf8 "add"
  · by_cases hi : args.get (utf8 "item") = []
    · rw [Perform_add_no_item J args w h2 hf hi]
      exact keep _ rfl
    rw [Perform_add J args w h2 hf hi]
    cases hq : J.unmarshalUser (args.get (utf8 "item")) with
    | mk u err =>
      rw [hq] at hrtAdd hgrow
      simp only at hrtAdd hgrow
      cases err with
      | some e =>
        rw [addUser_bad J _ _ w e (by rw [hq])]
        exact keep _ rfl
      | none =>
        by_cases hdup : ∃ r ∈ us, r.Id = u.Id
        · rw [addUser_dup J _ _ _ w u hq hfile (by rw [hdec]; exact hdup)]
          exact keep _ rfl
        · have hnew : ∀ r ∈ (J.unmarshalUsers (J.marshalUsers us)).1, r.Id ≠ u.Id := by
            rw [hdec]
            intro r hr hid
            exact hdup ⟨r, hr, hid⟩
          rw [addUser_new J _ _ _ w u hq hfile hnew, hdec, List.drop_eq_nil_of_le hgrow]
          intro b hb
          simp only [FS.set_same, List.append_nil] at hb
          injection hb with hb
          subst hb
          have h : (J.unmarshalUsers (J.marshalUsers (us ++ [u]))).1 = us ++ [u] := hrtAdd
          rw [h, List.map_append, List.nodup_append]
          refine ⟨hnd, by simp, ?_⟩
          intro a ha hb
          simp only [List.map_cons, List.map_nil, List.mem_singleton] at hb
          obtain ⟨r, hr, hid⟩ := List.mem_map.1 ha
          exact hdup ⟨r, hr, by rw [hid, hb]⟩
  by_cases h3 : args.get (utf8 "operation") = utf8 "findById"
  · by_cases hi : args.get (utf8 "id") = []
    · rw [Perform_findById_no_id J args w h3 hf hi]
      exact keep _ rfl
    rw [Perform_findById J args w h3 hf hi, findUserById_exists J _ _ _ w hfile]
    exact keep _ rfl
  by_cases h4 : args.get (utf8 "operation") = utf8 "remove"
  · by_cases hi : args.get (utf8 "id") = []
    · rw [Perform_remove_no_id J args w h4 hf hi]
      exact keep _ rfl
    rw [Perform_remove J args w h4 hf hi]
    by_cases hyes : ∃ r ∈ (J.unmarshalUsers (J.marshalUsers us)).1,
        r.Id = args.get (utf8 "id")
    · rw [removeUser_found J _ _ _ w hfile hyes, hdec]
      intro b hb
      simp only [FS.set_same] at hb
      injection hb with hb
      subst hb
      have h : (J.unmarshalUsers (J.marshalUsers
          (us.eraseP (fun u => decide (u.Id = args.get (utf8 "id")))))).1
          = us.eraseP (fun u => decide (u.Id = args.get (utf8 "id"))) := hrtRem
      rw [h]
      exact hnd.sublist ((List.eraseP_sublist us).map User.Id)
    · have hno : ∀ r ∈ (J.unmarshalUsers (J.marshalUsers us)).1,
          r.Id ≠ args.get (utf8 "id") := by
        intro r hr hid
        exact hyes ⟨r, hr, hid⟩
      rw [removeUser_absent_exists J _ _ _ w hfile hno]
      exact keep _ rfl
  · rw [Perform_other J args w h0 hf h1 h2 h3 h4]
    exact keep _ rfl

/-- C10, as stated, fails: the identifiers `0xff` and `0xfe` are distinct, both
are written as the escape of U+FFFD, and after `list`, which leaves the file
as it is, the file decodes to two records with the same identifier. -/
theorem distinct_ids_lost_in_serialization :
    (usersNotUtf8.map User.Id).Nodup
    ∧ goJson.marshalUsers usersNotUtf8 = fileNotUtf8
    ∧ worldNotUtf8.fs usersJson = some (goJson.marshalUsers usersNotUtf8)
    ∧ (Perform goJson argsList worldNotUtf8).1 = none
    ∧ (Perform goJson argsList worldNotUtf8).2.fs usersJson = some fileNotUtf8
    ∧ ¬ ((goJson.unmarshalUsers fileNotUtf8).1.map User.Id).Nodup := by
  set_option maxRecDepth 100000 in decide

/-- C10, amended: when the file holds the serialization of a list with
pairwise distinct identifiers and the codec reads that list back, reads back
the list with the decoded item appended and the list without the first record
with the given id, and writes the longer list in no fewer bytes, then after
`Perform`, whatever the arguments and whether or not it returns an error, the
contents of the file, if it exists, decode to a list with pairwise distinct
identifiers. -/
theorem distinct_ids_preserved (J : Json) (args : Arguments) (w : World) (us : Users)
    (hfile : w.fs (args.get (utf8 "fileName")) = some (J.marshalUsers us))
    (hnd : (us.map User.Id).Nodup)
    (hrt : J.RoundTrips us)
    (hrtAdd : J.RoundTrips (us ++ [(J.unmarshalUser (args.get (utf8 "item"))).1]))
    (hgrow : (J.marshalUsers us).length
        ≤ (J.marshalUsers (us ++ [(J.unmarshalUser (args.get (utf8 "item"))).1])).length)
    (hrtRem : J.RoundTrips (us.eraseP (fun u => decide (u.Id = args.get (utf8 "id"))))) :
    ∀ b, (Perform J args w).2.fs (args.get (utf8 "fileName")) = some b →
      ((J.unmarshalUsers b).1.map User.Id).Nodup :=
  distinct_ids_of_roundtrips J args w us hfile hnd hrt hrtAdd hgrow hrtRem

theorem distinct_ids_preserved_witness :
    (worldOne.fs (argsAddTwo.get (utf8 "fileName")) = some (goJson.marshalUsers [userOne])
      ∧ ([userOne].map User.Id).Nodup
      ∧ goJson.RoundTrips [userOne]
      ∧ goJson.RoundTrips
          ([userOne] ++ [(goJson.unmarshalUser (argsAddTwo.get (utf8 "item"))).1])
      ∧ (goJson.marshalUsers [userOne]).length
          ≤ (goJson.marshalUsers
              ([userOne] ++ [(goJson.unmarshalUser (argsAddTwo.get (utf8 "item"))).1])).length
      ∧ goJson.RoundTrips
          ([userOne].eraseP (fun u => decide (u.Id = argsAddTwo.get (utf8 "id"))))
      ∧ (Perform goJson argsAddTwo worldOne).2.fs (argsAddTwo.get (utf8 "fileName"))
          = some (goJson.marshalUsers [userOne, userTwo]))
    ∧ ((goJson.unmarshalUsers (goJson.marshalUsers [userOne, userTwo])).1.map User.Id).Nodup :=
  ⟨by set_option maxRecDepth 100000 in decide,
   distinct_ids_preserved goJson argsAddTwo worldOne [userOne]
     (by set_option maxRecDepth 100000 in decide)
     (by decide)
     (by set_option maxRecDepth 100000 in decide)
     (by set_option maxRecDepth 100000 in decide)
     (by set_option maxRecDepth 100000 in decide)
     (by set_option maxRecDepth 100000 in decide)
     (goJson.marshalUsers [userOne, userTwo])
     (by set_option maxRecDepth 100000 in decide)⟩

end UserStore
